import Mathlib

/-!
Shallow embedding of the AnalyticsEngine of the cosmic-quota repository
(module sessionTracker, class AnalyticsEngine) and proofs about it.

Numbers of the source language are modelled as rationals; timestamps are
rationals counting milliseconds; Math.round is the Mathlib round
(round to nearest, half away from zero upward, round x = floor (x + 1/2)),
Math.max / Math.min are max / min. The engine field sessionTracker of type
SessionTracker | null is modelled as Option SessionTracker, and each method
takes the state explicitly; methods that read Date.now() take that value as
an argument.
-/

namespace CosmicQuota

/-- The MS_PER_HOUR constant of the source. -/
def msPerHour : ℚ := 3600000

/-- One quota family of a snapshot: limit, request count, and the reset
timestamp (the source keeps an ISO string and parses it with
new Date(...).getTime(); we model the parsed millisecond value). -/
structure QuotaFamily where
  limit : ℚ
  requests : ℚ
  renewsAt : ℚ
  deriving DecidableEq

/-- The search field of QuotaData nests its family under hourly. -/
structure SearchQuota where
  hourly : QuotaFamily
  deriving DecidableEq

/-- The QuotaData snapshot: three quota families. -/
structure QuotaData where
  subscription : QuotaFamily
  search : SearchQuota
  freeToolCalls : QuotaFamily
  deriving DecidableEq

/-- One entry of the session history buffer. -/
structure HistoryEntry where
  timestamp : ℚ
  subscriptionUsed : ℚ
  deriving DecidableEq

instance : Inhabited HistoryEntry := ⟨⟨0, 0⟩⟩

/-- The SessionTracker record: session start, the three baselines, and the
bounded history buffer. -/
structure SessionTracker where
  sessionStartTime : ℚ
  initialSubscriptionQuota : ℚ
  initialToolCallsQuota : ℚ
  initialSearchQuota : ℚ
  history : List HistoryEntry
  deriving DecidableEq

/-- The trend values up / down / stable of the source. -/
inductive Trend where
  | up
  | down
  | stable
  deriving DecidableEq

/-- The QuotaAnalytics output record. projectedUsageAtReset is an integer
because the source rounds it; sessionHistory pairs a timestamp with a
rounded usage percent. -/
structure QuotaAnalytics where
  burnRatePerHour : ℚ
  hoursUntilDepletion : Option ℚ
  trend : Trend
  projectedUsageAtReset : Option ℤ
  sessionHistory : List (ℚ × ℤ)
  deriving DecidableEq

/-- The three rounded session usage figures returned by getSessionUsage. -/
structure SessionUsage where
  subscription : ℤ
  toolCalls : ℤ
  search : ℤ
  deriving DecidableEq

/-- The history entry written by the methods: timestamp now paired with
requests / limit of the subscription family. -/
def newEntry (data : QuotaData) (now : ℚ) : HistoryEntry :=
  ⟨now, data.subscription.requests / data.subscription.limit⟩

/-- Method initialize of AnalyticsEngine (the seeding entry point): null out
the tracker when tracking is off, otherwise capture the three baselines and
start the history with a single entry. Takes Date.now() as the argument now. -/
def seed (data : QuotaData) (trackSession : Bool) (now : ℚ) : Option SessionTracker :=
  if !trackSession then
    none
  else
    some
      { sessionStartTime := now
        initialSubscriptionQuota := data.subscription.requests / data.subscription.limit
        initialToolCallsQuota := data.freeToolCalls.requests / data.freeToolCalls.limit
        initialSearchQuota := data.search.hourly.requests / data.search.hourly.limit
        history := [newEntry data now] }

/-- Method updateHistory of AnalyticsEngine: no-op on a null tracker,
otherwise push (now, subscription fraction) and, when the length exceeds 10,
shift off the first (oldest) entry. -/
def updateHistory (st : Option SessionTracker) (data : QuotaData) (now : ℚ) :
    Option SessionTracker :=
  match st with
  | none => none
  | some t =>
    let pushed := t.history ++ [newEntry data now]
    let newHistory := if pushed.length > 10 then pushed.tail else pushed
    some { t with history := newHistory }

/-- The usedPercent quantity of getAnalytics:
(subscription.requests / subscription.limit) * 100. -/
def usedPercentOf (data : QuotaData) : ℚ :=
  data.subscription.requests / data.subscription.limit * 100

/-- The remainingPercent quantity of getAnalytics: 100 - usedPercent. -/
def remainingPercentOf (data : QuotaData) : ℚ :=
  100 - usedPercentOf data

/-- The hoursUntilReset quantity of getAnalytics:
Math.max(0, resetTime - now) / MS_PER_HOUR. -/
def hoursUntilResetOf (data : QuotaData) (now : ℚ) : ℚ :=
  max 0 (data.subscription.renewsAt - now) / msPerHour

/-- The cycleHours constant of getAnalytics (5 hour reset cycle). -/
def cycleHours : ℚ := 5

/-- The hoursElapsedInCycle quantity of getAnalytics:
Math.max(0, cycleHours - hoursUntilReset). -/
def hoursElapsedInCycleOf (data : QuotaData) (now : ℚ) : ℚ :=
  max 0 (cycleHours - hoursUntilResetOf data now)

/-- The globalBurnRatePerHour quantity of getAnalytics:
usedPercent / hoursElapsedInCycle when the elapsed time exceeds 0.1 hours,
otherwise 0. -/
def globalBurnRateOf (data : QuotaData) (now : ℚ) : ℚ :=
  if hoursElapsedInCycleOf data now > 1/10 then
    usedPercentOf data / hoursElapsedInCycleOf data now
  else 0

/-- The last three entries of a history list (the slice(-3) of the source,
used there only when the length is at least 3). -/
def lastThree (l : List HistoryEntry) : List HistoryEntry :=
  l.drop (l.length - 3)

/-- The session block of getAnalytics, transcribed as one function of the
tracker: it yields (sessionBurnRatePerHour, trend, isSessionReliable).
The source initialises the triple to (0, stable, false) and overwrites
inside the guards tracker non-null, history length at least 2, and
session span above 0.05 hours; the trend is only overwritten when the
history has at least 3 entries. -/
def sessionCalc (st : Option SessionTracker) : ℚ × Trend × Bool :=
  match st with
  | none => (0, Trend.stable, false)
  | some t =>
    if 2 ≤ t.history.length then
      let first := t.history.headD default
      let last := t.history.getLastD default
      let sessionHoursElapsed := (last.timestamp - first.timestamp) / msPerHour
      if sessionHoursElapsed > 1/20 then
        let usageChange := (last.subscriptionUsed - first.subscriptionUsed) * 100
        let sessionRate := max 0 (usageChange / sessionHoursElapsed)
        let trend :=
          if 3 ≤ t.history.length then
            let recent := lastThree t.history
            let recentChange :=
              ((recent.getLastD default).subscriptionUsed -
                (recent.headD default).subscriptionUsed) * 100
            if recentChange > 1/10 then Trend.up
            else if recentChange < -(1/10) then Trend.down
            else Trend.stable
          else Trend.stable
        (sessionRate, trend, true)
      else (0, Trend.stable, false)
    else (0, Trend.stable, false)

/-- The effectiveBurnRate quantity of getAnalytics: when the session rate is
reliable, the weighted average global * 0.7 + session * 0.3, otherwise the
global rate alone. -/
def effectiveBurnRateOf (st : Option SessionTracker) (data : QuotaData) (now : ℚ) : ℚ :=
  if (sessionCalc st).2.2 then
    globalBurnRateOf data now * (7/10) + (sessionCalc st).1 * (3/10)
  else globalBurnRateOf data now

/-- Method getAnalytics of AnalyticsEngine at an already resolved time now:
composes the quantities above, the depletion estimate, the forecast at
reset and the display history exactly as the source body does. -/
def getAnalyticsAt (st : Option SessionTracker) (data : QuotaData) (now : ℚ) :
    QuotaAnalytics :=
  let usedPercent := usedPercentOf data
  let remainingPercent := remainingPercentOf data
  let hoursUntilReset := hoursUntilResetOf data now
  let burnRatePerHour := effectiveBurnRateOf st data now
  let trend := (sessionCalc st).2.1
  let hoursUntilDepletion : Option ℚ :=
    if burnRatePerHour > 1 ∧ remainingPercent > 0 ∧ hoursUntilReset > 0 then
      let calculatedDepletion := remainingPercent / burnRatePerHour
      if calculatedDepletion < hoursUntilReset then some calculatedDepletion else none
    else none
  let projectedUsageAtReset : Option ℤ :=
    if hoursUntilReset > 0 then
      some (min 100 (round (usedPercent + burnRatePerHour * hoursUntilReset)))
    else none
  let sessionHistory : List (ℚ × ℤ) :=
    match st with
    | some t => t.history.map (fun h => (h.timestamp, round (h.subscriptionUsed * 100)))
    | none => []
  { burnRatePerHour := burnRatePerHour
    hoursUntilDepletion := hoursUntilDepletion
    trend := trend
    projectedUsageAtReset := projectedUsageAtReset
    sessionHistory := sessionHistory }

/-- Resolution of the time argument of getAnalytics. The source computes
now = nowOverride || Date.now(): an absent override and an override equal
to 0 (a falsy number) both fall back to the wall clock. -/
def resolveNow (nowOverride : Option ℚ) (wallClock : ℚ) : ℚ :=
  match nowOverride with
  | some t => if t = 0 then wallClock else t
  | none => wallClock

/-- Method getAnalytics of AnalyticsEngine: resolve the time argument, then
compute the analytics. wallClock stands for the Date.now() value the source
would read when the override is absent or falsy. -/
def getAnalytics (st : Option SessionTracker) (data : QuotaData)
    (nowOverride : Option ℚ) (wallClock : ℚ) : QuotaAnalytics :=
  getAnalyticsAt st data (resolveNow nowOverride wallClock)

/-- Method getAnalytics as a state transformer: its body reads the tracker
and never assigns to it, so the embedding returns the state untouched next
to the result. -/
def getAnalyticsOp (st : Option SessionTracker) (data : QuotaData)
    (nowOverride : Option ℚ) (wallClock : ℚ) :
    Option SessionTracker × QuotaAnalytics :=
  (st, getAnalytics st data nowOverride wallClock)

/-- Method getSessionUsage of AnalyticsEngine: all zeros on a null tracker,
otherwise the rounded differences between the current fractions and the
session baselines, for each of the three families. -/
def getSessionUsage (st : Option SessionTracker) (data : QuotaData) : SessionUsage :=
  match st with
  | none => ⟨0, 0, 0⟩
  | some t =>
    let currentSubPercent := data.subscription.requests / data.subscription.limit
    let currentToolPercent := data.freeToolCalls.requests / data.freeToolCalls.limit
    let currentSearchPercent := data.search.hourly.requests / data.search.hourly.limit
    { subscription := round ((currentSubPercent - t.initialSubscriptionQuota) * 100)
      toolCalls := round ((currentToolPercent - t.initialToolCallsQuota) * 100)
      search := round ((currentSearchPercent - t.initialSearchQuota) * 100) }

/-- The state-mutating entry points of the engine, for reasoning about call
sequences: seeding and recording a snapshot, each carrying the Date.now()
value the source would read. -/
inductive EngineOp where
  | seedOp (data : QuotaData) (trackSession : Bool) (now : ℚ)
  | recordOp (data : QuotaData) (now : ℚ)

/-- Apply one state-mutating entry point. -/
def applyOp (st : Option SessionTracker) : EngineOp → Option SessionTracker
  | EngineOp.seedOp data trackSession now => seed data trackSession now
  | EngineOp.recordOp data now => updateHistory st data now

/-- Apply a sequence of state-mutating entry points, oldest first. -/
def applyOps (st : Option SessionTracker) : List EngineOp → Option SessionTracker
  | [] => st
  | op :: rest => applyOps (applyOp st op) rest

/-- The history of an optional tracker; empty when the tracker is null. -/
def historyOf (st : Option SessionTracker) : List HistoryEntry :=
  match st with
  | none => []
  | some t => t.history

/-- The length of the history buffer of an optional tracker. -/
def historyLen (st : Option SessionTracker) : ℕ :=
  (historyOf st).length

/-- The reliability condition of the spec on the session rate: a tracker
exists, its history has at least 2 points, and the span from oldest to
newest entry exceeds 0.05 hours. -/
def sessionReliable (st : Option SessionTracker) : Bool :=
  match st with
  | none => false
  | some t =>
    decide (2 ≤ t.history.length) &&
      decide (1/20 <
        ((t.history.getLastD default).timestamp -
          (t.history.headD default).timestamp) / msPerHour)

/-- The session burn rate formula as the spec words it:
max(0, (last.usedFraction - first.usedFraction) * 100 / sessionHoursElapsed),
written against the oldest and newest history entries. -/
def specSessionRate (st : Option SessionTracker) : ℚ :=
  match st with
  | none => 0
  | some t =>
    let first := t.history.headD default
    let last := t.history.getLastD default
    let sessionHoursElapsed := (last.timestamp - first.timestamp) / msPerHour
    max 0 ((last.subscriptionUsed - first.subscriptionUsed) * 100 / sessionHoursElapsed)

/-- Every delta between the most recent 3 history points lies within
plus or minus 0.1 percentage points. -/
def deltasWithin (l : List HistoryEntry) : Prop :=
  ∀ a b, a ∈ lastThree l → b ∈ lastThree l →
    |(b.subscriptionUsed - a.subscriptionUsed) * 100| ≤ 1/10

/-!
Helper lemmas shared by the claim theorems.
-/

lemma getAnalytics_burn (st : Option SessionTracker) (data : QuotaData)
    (nowOverride : Option ℚ) (wallClock : ℚ) :
    (getAnalytics st data nowOverride wallClock).burnRatePerHour =
      effectiveBurnRateOf st data (resolveNow nowOverride wallClock) := rfl

lemma getAnalytics_trend (st : Option SessionTracker) (data : QuotaData)
    (nowOverride : Option ℚ) (wallClock : ℚ) :
    (getAnalytics st data nowOverride wallClock).trend = (sessionCalc st).2.1 := rfl

lemma getAnalytics_depletion (st : Option SessionTracker) (data : QuotaData)
    (nowOverride : Option ℚ) (wallClock : ℚ) :
    (getAnalytics st data nowOverride wallClock).hoursUntilDepletion =
      (if effectiveBurnRateOf st data (resolveNow nowOverride wallClock) > 1 ∧
            remainingPercentOf data > 0 ∧
            hoursUntilResetOf data (resolveNow nowOverride wallClock) > 0 then
         if remainingPercentOf data /
              effectiveBurnRateOf st data (resolveNow nowOverride wallClock) <
              hoursUntilResetOf data (resolveNow nowOverride wallClock) then
           some (remainingPercentOf data /
             effectiveBurnRateOf st data (resolveNow nowOverride wallClock))
         else none
       else none) := rfl

lemma getAnalytics_projected (st : Option SessionTracker) (data : QuotaData)
    (nowOverride : Option ℚ) (wallClock : ℚ) :
    (getAnalytics st data nowOverride wallClock).projectedUsageAtReset =
      (if hoursUntilResetOf data (resolveNow nowOverride wallClock) > 0 then
         some (min 100 (round (usedPercentOf data +
           effectiveBurnRateOf st data (resolveNow nowOverride wallClock) *
             hoursUntilResetOf data (resolveNow nowOverride wallClock))))
       else none) := rfl

lemma hoursUntilReset_nonneg (data : QuotaData) (now : ℚ) :
    0 ≤ hoursUntilResetOf data now := by
  unfold hoursUntilResetOf
  apply div_nonneg (le_max_left 0 _)
  norm_num [msPerHour]

lemma globalBurnRate_nonneg (data : QuotaData) (now : ℚ)
    (hl : 0 < data.subscription.limit) (hr : 0 ≤ data.subscription.requests) :
    0 ≤ globalBurnRateOf data now := by
  unfold globalBurnRateOf
  split_ifs with h
  · have hu : 0 ≤ usedPercentOf data := by
      unfold usedPercentOf
      exact mul_nonneg (div_nonneg hr hl.le) (by norm_num)
    exact div_nonneg hu (by linarith)
  · exact le_refl 0

lemma sessionCalc_rate_nonneg (st : Option SessionTracker) :
    0 ≤ (sessionCalc st).1 := by
  cases st with
  | none => simp [sessionCalc]
  | some t =>
    simp only [sessionCalc]
    split_ifs <;> simp [le_max_left]

lemma effectiveBurnRate_nonneg (st : Option SessionTracker) (data : QuotaData) (now : ℚ)
    (hl : 0 < data.subscription.limit) (hr : 0 ≤ data.subscription.requests) :
    0 ≤ effectiveBurnRateOf st data now := by
  have hg := globalBurnRate_nonneg data now hl hr
  have hs := sessionCalc_rate_nonneg st
  unfold effectiveBurnRateOf
  split_ifs
  · have h1 : 0 ≤ globalBurnRateOf data now * (7/10) :=
      mul_nonneg hg (by norm_num)
    have h2 : 0 ≤ (sessionCalc st).1 * (3/10) :=
      mul_nonneg hs (by norm_num)
    linarith
  · exact hg

lemma sessionCalc_reliable (st : Option SessionTracker) :
    (sessionCalc st).2.2 = sessionReliable st := by
  cases st with
  | none => simp [sessionCalc, sessionReliable]
  | some t =>
    simp only [sessionCalc, sessionReliable]
    split_ifs <;> simp_all

lemma sessionCalc_rate_of_reliable (st : Option SessionTracker)
    (h : sessionReliable st = true) : (sessionCalc st).1 = specSessionRate st := by
  cases st with
  | none => simp [sessionReliable] at h
  | some t =>
    simp only [sessionReliable, Bool.and_eq_true, decide_eq_true_eq] at h
    obtain ⟨h1, h2⟩ := h
    simp only [sessionCalc, specSessionRate]
    rw [if_pos h1, if_pos h2]

/-!
Concrete snapshots and trackers used by the closed theorems below.
-/

/-- A snapshot with the subscription family 50 percent used (50 of 100) and
a reset timestamp at the 5 hour mark of the epoch cycle. -/
def dataC : QuotaData := ⟨⟨100, 50, 18000000⟩, ⟨⟨100, 0, 0⟩⟩, ⟨100, 0, 0⟩⟩

/-- A snapshot with the subscription family 50.4 percent used (504 of 1000). -/
def dataB : QuotaData := ⟨⟨1000, 504, 18000000⟩, ⟨⟨100, 0, 0⟩⟩, ⟨100, 0, 0⟩⟩

/-- A snapshot with the subscription family 90 percent used (90 of 100). -/
def dataD : QuotaData := ⟨⟨100, 90, 18000000⟩, ⟨⟨100, 0, 0⟩⟩, ⟨100, 0, 0⟩⟩

/-- The tracker produced by seeding with dataC at time 1000. -/
def trC : SessionTracker := ⟨1000, 1/2, 0, 0, [⟨1000, 1/2⟩]⟩

/-!
Claim theorems.
-/

/-- C7: for every SessionState, snapshot and now, if the session rate is
reliable (history has at least 2 points and the oldest-to-newest span
exceeds 0.05 hours) then the burnRatePerHour returned by getAnalytics is
0.7 times the global rate plus 0.3 times the clamped session rate
max(0, (last.usedFraction - first.usedFraction) * 100 / sessionHoursElapsed);
otherwise it equals the global rate. -/
theorem burnRate_blend (st : Option SessionTracker) (data : QuotaData)
    (nowOverride : Option ℚ) (wallClock : ℚ) :
    (getAnalytics st data nowOverride wallClock).burnRatePerHour =
      (if sessionReliable st then
         (7/10) * globalBurnRateOf data (resolveNow nowOverride wallClock) +
           (3/10) * specSessionRate st
       else globalBurnRateOf data (resolveNow nowOverride wallClock)) := by
  rw [getAnalytics_burn]
  unfold effectiveBurnRateOf
  rw [sessionCalc_reliable]
  by_cases h : sessionReliable st = true
  · rw [if_pos h, if_pos h, sessionCalc_rate_of_reliable st h]
    ring
  · rw [if_neg h, if_neg h]

/-- C10: for every SessionState, now, and snapshot whose subscription family
has positive limit and non-negative request count, the burnRatePerHour
returned by getAnalytics is non-negative. -/
theorem burnRate_nonneg (st : Option SessionTracker) (data : QuotaData)
    (nowOverride : Option ℚ) (wallClock : ℚ)
    (hl : 0 < data.subscription.limit) (hr : 0 ≤ data.subscription.requests) :
    0 ≤ (getAnalytics st data nowOverride wallClock).burnRatePerHour := by
  rw [getAnalytics_burn]
  exact effectiveBurnRate_nonneg st data (resolveNow nowOverride wallClock) hl hr

/-- Witness for C10 at the concrete snapshot dataC. -/
theorem burnRate_nonneg_witness :
    0 < dataC.subscription.limit ∧ 0 ≤ dataC.subscription.requests ∧
      0 ≤ (getAnalytics none dataC (some 14400000) 0).burnRatePerHour :=
  ⟨by norm_num [dataC], by norm_num [dataC],
    burnRate_nonneg none dataC (some 14400000) 0
      (by norm_num [dataC]) (by norm_num [dataC])⟩

lemma sessionCalc_trend_stable (st : Option SessionTracker)
    (h : historyLen st < 3 ∨ deltasWithin (historyOf st)) :
    (sessionCalc st).2.1 = Trend.stable := by
  cases st with
  | none => simp [sessionCalc]
  | some t =>
    simp only [historyLen, historyOf] at h
    simp only [sessionCalc]
    split_ifs with h1 h2 h3 h4 h5
    · exfalso
      rcases h with hlt | hd
      · omega
      · have hlen3 : (lastThree t.history).length = 3 := by
          unfold lastThree
          rw [List.length_drop]
          omega
        obtain ⟨a, b, c, habc⟩ := List.length_eq_three.mp hlen3
        have ha : a ∈ lastThree t.history := by rw [habc]; simp
        have hc : c ∈ lastThree t.history := by rw [habc]; simp
        have hb := hd a c ha hc
        rw [abs_le] at hb
        rw [habc] at h4
        simp only [List.getLastD_cons, List.getLastD_nil, List.headD_cons] at h4
        linarith [hb.2]
    · exfalso
      rcases h with hlt | hd
      · omega
      · have hlen3 : (lastThree t.history).length = 3 := by
          unfold lastThree
          rw [List.length_drop]
          omega
        obtain ⟨a, b, c, habc⟩ := List.length_eq_three.mp hlen3
        have ha : a ∈ lastThree t.history := by rw [habc]; simp
        have hc : c ∈ lastThree t.history := by rw [habc]; simp
        have hb := hd a c ha hc
        rw [abs_le] at hb
        rw [habc] at h5
        simp only [List.getLastD_cons, List.getLastD_nil, List.headD_cons] at h5
        linarith [hb.1]
    · rfl
    · rfl
    · rfl
    · rfl

/-- C2: for every SessionState, snapshot and now, getAnalytics returns the
stable (flat) trend whenever the history has fewer than 3 points, and also
whenever every delta between the most recent 3 history points lies within
plus or minus 0.1 percentage points. -/
theorem trend_stable_of_small_deltas (st : Option SessionTracker) (data : QuotaData)
    (nowOverride : Option ℚ) (wallClock : ℚ)
    (h : historyLen st < 3 ∨ deltasWithin (historyOf st)) :
    (getAnalytics st data nowOverride wallClock).trend = Trend.stable := by
  rw [getAnalytics_trend]
  exact sessionCalc_trend_stable st h

/-- Witness for C2 at the empty session state. -/
theorem trend_stable_of_small_deltas_witness :
    (historyLen (none : Option SessionTracker) < 3 ∨
        deltasWithin (historyOf (none : Option SessionTracker))) ∧
      (getAnalytics none dataC (some 14400000) 0).trend = Trend.stable :=
  ⟨Or.inl (by simp [historyLen, historyOf]),
    trend_stable_of_small_deltas none dataC (some 14400000) 0
      (Or.inl (by simp [historyLen, historyOf]))⟩

/-- C6: for every SessionState, snapshot and now, whenever getAnalytics
reports hoursUntilDepletion it is strictly positive and strictly below
hoursUntilReset, and its presence requires an effective burn rate above
1 percent per hour, remainingPercent above 0 and hoursUntilReset above 0. -/
theorem depletion_before_reset (st : Option SessionTracker) (data : QuotaData)
    (nowOverride : Option ℚ) (wallClock : ℚ) (d : ℚ)
    (h : (getAnalytics st data nowOverride wallClock).hoursUntilDepletion = some d) :
    0 < d ∧ d < hoursUntilResetOf data (resolveNow nowOverride wallClock) ∧
      1 < (getAnalytics st data nowOverride wallClock).burnRatePerHour ∧
      0 < remainingPercentOf data ∧
      0 < hoursUntilResetOf data (resolveNow nowOverride wallClock) := by
  rw [getAnalytics_depletion] at h
  split_ifs at h with h1 h2
  · obtain ⟨hb, hrem, hres⟩ := h1
    have hd : remainingPercentOf data /
        effectiveBurnRateOf st data (resolveNow nowOverride wallClock) = d :=
      Option.some.inj h
    refine ⟨?_, ?_, ?_, hrem, hres⟩
    · rw [← hd]
      exact div_pos hrem (by linarith)
    · rw [← hd]
      exact h2
    · rw [getAnalytics_burn]
      exact hb

/-- Witness for C6 at the snapshot dataD, 90 percent used 4 hours into the
cycle: the depletion estimate is 4/9 of an hour. -/
theorem depletion_before_reset_witness :
    0 < (4:ℚ)/9 ∧ (4:ℚ)/9 < hoursUntilResetOf dataD (resolveNow (some 14400000) 0) ∧
      1 < (getAnalytics none dataD (some 14400000) 0).burnRatePerHour ∧
      0 < remainingPercentOf dataD ∧
      0 < hoursUntilResetOf dataD (resolveNow (some 14400000) 0) :=
  depletion_before_reset none dataD (some 14400000) 0 (4/9)
    (by norm_num [getAnalytics, getAnalyticsAt, resolveNow, effectiveBurnRateOf,
      sessionCalc, globalBurnRateOf, hoursElapsedInCycleOf, hoursUntilResetOf,
      usedPercentOf, remainingPercentOf, cycleHours, msPerHour, dataD])

/-- C5: immediately after seeding with a snapshot whose three limits are
positive, sessionUsage on that same snapshot is all zeros; and with no
SessionState (tracking disabled) sessionUsage is all zeros on every
snapshot. -/
theorem sessionUsage_zero_after_seed (data d2 : QuotaData) (now : ℚ)
    (h1 : 0 < data.subscription.limit) (h2 : 0 < data.search.hourly.limit)
    (h3 : 0 < data.freeToolCalls.limit) :
    getSessionUsage (seed data true now) data = ⟨0, 0, 0⟩ ∧
      getSessionUsage none d2 = ⟨0, 0, 0⟩ := by
  constructor
  · simp [seed, getSessionUsage, newEntry]
  · rfl

/-- Witness for C5 at the concrete snapshots dataC and dataD. -/
theorem sessionUsage_zero_after_seed_witness :
    getSessionUsage (seed dataC true 1000) dataC = ⟨0, 0, 0⟩ ∧
      getSessionUsage none dataD = ⟨0, 0, 0⟩ :=
  sessionUsage_zero_after_seed dataC dataD 1000
    (by norm_num [dataC]) (by norm_num [dataC]) (by norm_num [dataC])

/-- Counterexample to C3 as stated: with the explicitly supplied now value 0
(a falsy number, so the source expression nowOverride || Date.now() ignores
it), the result still depends on the wall clock: the same three arguments
give different analytics under two wall clocks. -/
theorem analytics_zero_override_cex :
    getAnalytics none dataC (some 0) 14400000 ≠
      getAnalytics none dataC (some 0) 18000000 := by
  intro h
  have h1 : (getAnalytics none dataC (some 0) 14400000).projectedUsageAtReset =
      some 63 := by
    norm_num [getAnalytics, getAnalyticsAt, resolveNow, effectiveBurnRateOf,
      sessionCalc, globalBurnRateOf, hoursElapsedInCycleOf, hoursUntilResetOf,
      usedPercentOf, remainingPercentOf, cycleHours, msPerHour, dataC, round_eq]
  have h2 : (getAnalytics none dataC (some 0) 18000000).projectedUsageAtReset =
      none := by
    norm_num [getAnalytics, getAnalyticsAt, resolveNow, effectiveBurnRateOf,
      sessionCalc, globalBurnRateOf, hoursElapsedInCycleOf, hoursUntilResetOf,
      usedPercentOf, remainingPercentOf, cycleHours, msPerHour, dataC]
  rw [h] at h1
  rw [h2] at h1
  exact Option.noConfusion h1

/-- C3 amended: for every explicitly supplied nonzero now value, the result
of getAnalytics is determined solely by (SessionState, snapshot, now),
regardless of the wall clock. (The source resolves the time argument with
nowOverride || Date.now(), so the supplied value 0 falls back to the wall
clock; every nonzero supplied value is used as is.) -/
theorem analytics_deterministic_of_nonzero_now (st : Option SessionTracker)
    (data : QuotaData) (t w1 w2 : ℚ) (h : t ≠ 0) :
    getAnalytics st data (some t) w1 = getAnalytics st data (some t) w2 := by
  simp [getAnalytics, resolveNow, h]

/-- Witness for the amended C3 at the supplied now value 14400000. -/
theorem analytics_deterministic_of_nonzero_now_witness :
    getAnalytics none dataC (some 14400000) 0 =
      getAnalytics none dataC (some 14400000) 99999999 :=
  analytics_deterministic_of_nonzero_now none dataC 14400000 0 99999999
    (by norm_num)

/-- Counterexample to C1 as stated: with the subscription family 50.4
percent used (504 of 1000, a positive limit) and 3.6 seconds left until
reset, the forecast rounds down to 50, strictly below usedPercent = 50.4,
so the reported value is not within [usedPercent, 100]. -/
theorem projected_below_usedPercent_cex :
    0 < dataB.subscription.limit ∧
      (getAnalytics none dataB (some 17996400) 0).projectedUsageAtReset = some 50 ∧
      ((50 : ℚ) < usedPercentOf dataB) := by
  refine ⟨by norm_num [dataB], ?_, by norm_num [usedPercentOf, dataB]⟩
  norm_num [getAnalytics, getAnalyticsAt, resolveNow, effectiveBurnRateOf, sessionCalc,
    globalBurnRateOf, hoursElapsedInCycleOf, hoursUntilResetOf, usedPercentOf,
    remainingPercentOf, cycleHours, msPerHour, dataB, round_eq]

/-- C1 amended: for every SessionState, snapshot with positive subscription
limit and non-negative request count, and now, the reported
projectedUsageAtReset lies within [min(usedPercent, 100) - 1/2, 100]
whenever present (the pre-rounding forecast is at least usedPercent, but
rounding to the nearest integer may undershoot it by up to half a point),
and it is absent exactly when hoursUntilReset <= 0. -/
theorem projected_bounds (st : Option SessionTracker) (data : QuotaData)
    (nowOverride : Option ℚ) (wallClock : ℚ)
    (hl : 0 < data.subscription.limit) (hr : 0 ≤ data.subscription.requests) :
    (∀ p : ℤ, (getAnalytics st data nowOverride wallClock).projectedUsageAtReset =
        some p →
      min (usedPercentOf data) 100 - 1/2 ≤ (p : ℚ) ∧ p ≤ 100) ∧
      ((getAnalytics st data nowOverride wallClock).projectedUsageAtReset = none ↔
        hoursUntilResetOf data (resolveNow nowOverride wallClock) ≤ 0) := by
  have hUR0 := hoursUntilReset_nonneg data (resolveNow nowOverride wallClock)
  have heff := effectiveBurnRate_nonneg st data (resolveNow nowOverride wallClock) hl hr
  constructor
  · intro p hp
    rw [getAnalytics_projected] at hp
    split_ifs at hp with hpos
    · have hpv : min 100 (round (usedPercentOf data +
          effectiveBurnRateOf st data (resolveNow nowOverride wallClock) *
            hoursUntilResetOf data (resolveNow nowOverride wallClock))) = p :=
        Option.some.inj hp
      set v := usedPercentOf data +
        effectiveBurnRateOf st data (resolveNow nowOverride wallClock) *
          hoursUntilResetOf data (resolveNow nowOverride wallClock) with hv
      have hvge : usedPercentOf data ≤ v := by
        have := mul_nonneg heff hUR0
        rw [hv]
        linarith
      have hvr : v - 1/2 ≤ ((round v : ℤ) : ℚ) := by
        have habs := abs_sub_round v
        rw [abs_le] at habs
        linarith [habs.2]
      constructor
      · rw [← hpv]
        push_cast
        refine le_min ?_ ?_
        · linarith [min_le_right (usedPercentOf data) (100:ℚ)]
        · linarith [min_le_left (usedPercentOf data) (100:ℚ)]
      · rw [← hpv]
        exact min_le_left _ _
  · rw [getAnalytics_projected]
    split_ifs with hpos
    · exact iff_of_false (by simp) (not_le.mpr hpos)
    · exact iff_of_true rfl (not_lt.mp hpos)

/-- Witness for the amended C1 at the concrete snapshot dataC. -/
theorem projected_bounds_witness :
    (∀ p : ℤ, (getAnalytics none dataC (some 14400000) 0).projectedUsageAtReset =
        some p →
      min (usedPercentOf dataC) 100 - 1/2 ≤ (p : ℚ) ∧ p ≤ 100) ∧
      ((getAnalytics none dataC (some 14400000) 0).projectedUsageAtReset = none ↔
        hoursUntilResetOf dataC (resolveNow (some 14400000) 0) ≤ 0) :=
  projected_bounds none dataC (some 14400000) 0
    (by norm_num [dataC]) (by norm_num [dataC])

/-- C8: at 4 hours into the 5 hour cycle with the subscription family 50
percent used, reset in 1 hour and no reliable session rate, getAnalytics
reports the global rate 12.5 and the forecast round(50 + 12.5) = 63. -/
theorem scenario_forecast :
    (getAnalytics none dataC (some 14400000) 0).burnRatePerHour = 25/2 ∧
      (getAnalytics none dataC (some 14400000) 0).projectedUsageAtReset = some 63 := by
  constructor <;>
    norm_num [getAnalytics, getAnalyticsAt, resolveNow, effectiveBurnRateOf,
      sessionCalc, globalBurnRateOf, hoursElapsedInCycleOf, hoursUntilResetOf,
      usedPercentOf, remainingPercentOf, cycleHours, msPerHour, dataC, round_eq]

lemma historyLen_seed_le (data : QuotaData) (trackSession : Bool) (now : ℚ) :
    historyLen (seed data trackSession now) ≤ 10 := by
  cases trackSession <;> simp [seed, historyLen, historyOf]

lemma historyLen_updateHistory_le (st : Option SessionTracker) (data : QuotaData)
    (now : ℚ) (h : historyLen st ≤ 10) :
    historyLen (updateHistory st data now) ≤ 10 := by
  cases st with
  | none => simpa [updateHistory] using h
  | some t =>
    simp only [historyLen, historyOf, updateHistory] at h ⊢
    split_ifs with hlen
    · simp only [List.length_tail, List.length_append, List.length_singleton]
      omega
    · simp only [List.length_append, List.length_singleton] at hlen ⊢
      omega

lemma applyOps_len_le (ops : List EngineOp) (st : Option SessionTracker)
    (h : historyLen st ≤ 10) : historyLen (applyOps st ops) ≤ 10 := by
  induction ops generalizing st with
  | nil => exact h
  | cons op rest ih =>
    refine ih (applyOp st op) ?_
    cases op with
    | seedOp data trackSession now => exact historyLen_seed_le data trackSession now
    | recordOp data now => exact historyLen_updateHistory_le st data now h

/-- C4: starting from the empty engine state, after any finite sequence of
seed and recordSnapshot calls the history length never exceeds 10, and a
further recordSnapshot call appends the new entry and, exactly when the
buffer already holds 10 entries, evicts the single first-inserted entry
(strict FIFO, never a full clear). -/
theorem history_bounded_fifo (ops : List EngineOp) (data : QuotaData) (now : ℚ) :
    historyLen (applyOps none ops) ≤ 10 ∧
      ∀ t, applyOps none ops = some t →
        updateHistory (some t) data now =
          some { t with history :=
            if t.history.length = 10 then t.history.tail ++ [newEntry data now]
            else t.history ++ [newEntry data now] } := by
  have hlen := applyOps_len_le ops none (by simp [historyLen, historyOf])
  refine ⟨hlen, ?_⟩
  intro t ht
  have hle : t.history.length ≤ 10 := by
    rw [ht] at hlen
    simpa [historyLen, historyOf] using hlen
  simp only [updateHistory]
  by_cases hfull : t.history.length = 10
  · rw [if_pos hfull]
    have hgt : (t.history ++ [newEntry data now]).length > 10 := by
      simp [hfull]
    rw [if_pos hgt]
    obtain ⟨x, rest, hx⟩ : ∃ x rest, t.history = x :: rest := by
      cases hh : t.history with
      | nil => rw [hh] at hfull; simp at hfull
      | cons x rest => exact ⟨x, rest, rfl⟩
    rw [hx]
    simp
  · rw [if_neg hfull]
    have hng : ¬(t.history ++ [newEntry data now]).length > 10 := by
      simp only [List.length_append, List.length_singleton]
      omega
    rw [if_neg hng]

/-- Witness for C4: one seeding call, then a record on the singleton
history. -/
theorem history_bounded_fifo_witness :
    historyLen (applyOps none [EngineOp.seedOp dataC true 1000]) ≤ 10 ∧
      updateHistory (some trC) dataC 2000 =
        some { trC with history :=
          if trC.history.length = 10 then trC.history.tail ++ [newEntry dataC 2000]
          else trC.history ++ [newEntry dataC 2000] } := by
  have h := history_bounded_fifo [EngineOp.seedOp dataC true 1000] dataC 2000
  refine ⟨h.1, h.2 trC ?_⟩
  simp [applyOps, applyOp, seed, newEntry, trC, dataC]
  norm_num

/-- C9: getAnalytics mutates nothing: viewed as a state transformer it
returns the engine state unchanged, and in particular the history buffer,
the three session baselines and the session start time of an existing
tracker are untouched. -/
theorem getAnalytics_preserves_state (st : Option SessionTracker) (data : QuotaData)
    (nowOverride : Option ℚ) (wallClock : ℚ) :
    (getAnalyticsOp st data nowOverride wallClock).1 = st ∧
      ∀ t, st = some t →
        ∃ u, (getAnalyticsOp st data nowOverride wallClock).1 = some u ∧
          u.history = t.history ∧
          u.sessionStartTime = t.sessionStartTime ∧
          u.initialSubscriptionQuota = t.initialSubscriptionQuota ∧
          u.initialToolCallsQuota = t.initialToolCallsQuota ∧
          u.initialSearchQuota = t.initialSearchQuota := by
  refine ⟨rfl, ?_⟩
  intro t ht
  exact ⟨t, by rw [ht]; rfl, rfl, rfl, rfl, rfl, rfl⟩

/-- Witness for C9 at the concrete tracker trC. -/
theorem getAnalytics_preserves_state_witness :
    (getAnalyticsOp (some trC) dataC (some 14400000) 0).1 = some trC ∧
      ∃ u, (getAnalyticsOp (some trC) dataC (some 14400000) 0).1 = some u ∧
        u.history = trC.history ∧
        u.sessionStartTime = trC.sessionStartTime ∧
        u.initialSubscriptionQuota = trC.initialSubscriptionQuota ∧
        u.initialToolCallsQuota = trC.initialToolCallsQuota ∧
        u.initialSearchQuota = trC.initialSearchQuota := by
  have h := getAnalytics_preserves_state (some trC) dataC (some 14400000) 0
  exact ⟨h.1, h.2 trC rfl⟩

end CosmicQuota
